import Mathlib

/-!
Verification development for the cat-bot Cloudflare worker (`src/worker.js`).

The worker keeps a two-tier cache of a trigger→responses table:
a process-tier entry (`ramCache`, TTL 5 minutes) and a durable-tier entry
(KV key `"sheet-v1"`, same TTL enforced by the store).  `fetchSheet` is the
read-through operation; `handleRequest` is the webhook dispatch handler;
`handleScheduled` is the cron handler.  Below, each JS function is embedded
as a pure Lean function over an explicit state (`WorkerState`) plus an
explicit description of the external world for one call (`Ctx`): the clock,
whether each KV operation succeeds, and the remote source's reply.
-/

namespace CatBot

/-- JS whitespace for `String.prototype.trim` (the characters that occur in
practice in spreadsheet cells). -/
def isWS (c : Char) : Bool :=
  c = ' ' ∨ c = '\t' ∨ c = '\n' ∨ c = '\r'

/-- `s.trim()`: strip whitespace from both ends. -/
def jsTrim (s : String) : String :=
  ⟨((s.data.dropWhile isWS).reverse.dropWhile isWS).reverse⟩

/-- `s.toLowerCase()`: lowercase every character. -/
def jsToLower (s : String) : String :=
  ⟨s.data.map Char.toLower⟩

/-- Trigger normalization, as in `(s || "").trim().toLowerCase()`. -/
def normalize (s : String) : String := jsToLower (jsTrim s)

/-- The trigger table as JS builds it: an insertion-ordered association list,
mirroring a JS `Map<string, string[]>` (distinct keys by construction of
`mapSet`). -/
abbrev TriggerMap := List (String × List String)

/-- JS `Map.prototype.get`. -/
def mapGet (m : TriggerMap) (k : String) : Option (List String) :=
  match m with
  | [] => none
  | (k', v) :: rest => if k' = k then some v else mapGet rest k

/-- JS `Map.prototype.has`. -/
def mapHas (m : TriggerMap) (k : String) : Bool :=
  (mapGet m k).isSome

/-- JS `Map.prototype.set`: update in place when the key exists (keeping its
position), append otherwise. -/
def mapSet (m : TriggerMap) (k : String) (v : List String) : TriggerMap :=
  match m with
  | [] => [(k, v)]
  | (k', v') :: rest => if k' = k then (k', v) :: rest else (k', v') :: mapSet rest k v

/-- JS `new Map(pairs)`: left-to-right `set` of each pair into a fresh map. -/
def jsNewMap (pairs : List (String × List String)) : TriggerMap :=
  pairs.foldl (fun m p => mapSet m p.1 p.2) []

/-- `row[1] || ""` then trim + lowercase — column B, the trigger cell. -/
def rowTrigger (row : List String) : String :=
  normalize (row.getD 1 "")

/-- `row[2] || ""` then trim — column C, the response cell. -/
def rowResponse (row : List String) : String :=
  jsTrim (row.getD 2 "")

/-- One iteration of the parsing loop in `fetchSheet` (worker.js lines 76–85):
skip the row if either field is blank after trimming, otherwise append the
response to the trigger's entry, creating it on first occurrence. -/
def addRow (m : TriggerMap) (row : List String) : TriggerMap :=
  let t := rowTrigger row
  let r := rowResponse row
  if t = "" ∨ r = "" then m
  else mapSet m t (((mapGet m t).getD []) ++ [r])

/-- The parsing loop over the data rows. -/
def buildMap (rows : List (List String)) : TriggerMap :=
  rows.foldl addRow []

/-- The full rebuild parser: worker.js iterates from `i = 1`, skipping the
header row at index 0. -/
def parseValues (values : List (List String)) : TriggerMap :=
  buildMap (values.drop 1)

/-- `Array.from(map.entries())` — the serialized projection written to KV. -/
def serialize (m : TriggerMap) : List (String × List String) := m

-- sanity checks on the parser embedding
example : normalize "  MeOw " = "meow" := by decide
example : parseValues [["h1","h2","h3"],["x","Meow","a"],["x","meow ","b"],["x","MEOW","c"]]
    = [("meow", ["a","b","c"])] := by decide
example : buildMap [["a"],["a","b"],["", "t", "r"]] = [("t",["r"])] := by decide

/-! ### Cache state and the external world of one call -/

/-- `ramCache` when non-null: `{ data, exp }`. -/
structure CacheEntry where
  data : TriggerMap
  exp : Nat
deriving DecidableEq

/-- The worker's mutable state: the process-tier entry (`ramCache`) and the
durable-tier entry under KV key `"sheet-v1"` (`none` = absent or expired by
the store's own TTL). -/
structure WorkerState where
  ramCache : Option CacheEntry
  kv : Option (List (String × List String))
deriving DecidableEq

/-- Which bindings/secrets are present on the `env` object. -/
structure Env where
  hasKV : Bool
  hasSheetsId : Bool
  hasApiKey : Bool
  hasBotToken : Bool
deriving DecidableEq

/-- Outcome of `await fetch(sheetsUrl)`. -/
inductive RemoteResult where
  | transportError : RemoteResult
  | httpError (status : Nat) : RemoteResult
  | ok (values : List (List String)) : RemoteResult
deriving DecidableEq

/-- External behavior during one handler invocation: the clock, whether each
KV operation succeeds, the remote source's reply, and the value of
`Math.random()`. -/
structure Ctx where
  now : Nat
  kvReadOk : Bool
  remote : RemoteResult
  kvPutOk : Bool
  kvDeleteOk : Bool
  rand : ℚ

/-- The errors `fetchSheet` can throw. -/
inductive FetchErr where
  | configKV : FetchErr
  | configCreds : FetchErr
  | kvRead : FetchErr
  | transport : FetchErr
  | remote (status : Nat) : FetchErr
deriving DecidableEq

/-- Result of `fetchSheet`: the returned table or the thrown error. -/
inductive FResult where
  | ok (table : TriggerMap) : FResult
  | err (e : FetchErr) : FResult
deriving DecidableEq

/-- `fetchSheet`'s observable effects: its result, the state it leaves behind,
and how many times it contacted the remote source / read the KV tier /
attempted a KV write. -/
structure FetchOutcome where
  result : FResult
  state : WorkerState
  remoteCalls : Nat
  kvReads : Nat
  kvPuts : Nat
deriving DecidableEq

/-- `RAM_TTL = 5 * 60 * 1000` (milliseconds). -/
def RAM_TTL : Nat := 5 * 60 * 1000

/-- `ramCache && Date.now() < ramCache.exp`. -/
def ramFresh (now : Nat) (ram : Option CacheEntry) : Bool :=
  match ram with
  | some c => now < c.exp
  | none => false

/-- `fetchSheet` after the RAM-freshness check failed (worker.js steps 2–7):
read KV; if present deserialize into a fresh process-tier entry; otherwise
check credentials, contact the remote source, parse, attempt the KV write
(its failure is logged and swallowed), and populate the process tier. -/
def fetchCold (env : Env) (ctx : Ctx) (s : WorkerState) : FetchOutcome :=
  if ctx.kvReadOk = false then
    ⟨.err .kvRead, s, 0, 1, 0⟩
  else
    match s.kv with
    | some raw =>
      let map := jsNewMap raw
      ⟨.ok map, ⟨some ⟨map, ctx.now + RAM_TTL⟩, s.kv⟩, 0, 1, 0⟩
    | none =>
      if env.hasSheetsId = false ∨ env.hasApiKey = false then
        ⟨.err .configCreds, s, 0, 1, 0⟩
      else
        match ctx.remote with
        | .transportError => ⟨.err .transport, s, 1, 1, 0⟩
        | .httpError status => ⟨.err (.remote status), s, 1, 1, 0⟩
        | .ok values =>
          let map := parseValues values
          let kv' := if ctx.kvPutOk then some (serialize map) else s.kv
          ⟨.ok map, ⟨some ⟨map, ctx.now + RAM_TTL⟩, kv'⟩, 1, 1, 1⟩

/-- `fetchSheet(env)` (worker.js lines 33–98): binding check, then the fresh
process tier short-circuits everything else; otherwise fall through to the
cold path. -/
def fetchSheet (env : Env) (ctx : Ctx) (s : WorkerState) : FetchOutcome :=
  if env.hasKV = false then
    ⟨.err .configKV, s, 0, 0, 0⟩
  else
    match s.ramCache with
    | some c =>
      if ctx.now < c.exp then ⟨.ok c.data, s, 0, 0, 0⟩
      else fetchCold env ctx s
    | none => fetchCold env ctx s

/-! ### Dispatch handler (`handleRequest`) and cron handler (`handleScheduled`) -/

/-- The built-in command → trigger alias table. -/
def commandMap : List (String × String) :=
  [("/command1", "мяу"), ("/command2", "песенка"), ("/command3", "обнимашка"),
   ("/command4", "скучно"), ("/command5", "миссия"), ("/command6", "поговорим")]

/-- `pickRandom(arr)` = `arr[Math.floor(Math.random() * arr.length)]`, with
`Math.random()` passed explicitly; an out-of-range index is JS `undefined`,
modelled as `none`. -/
def pickRandom (arr : List String) (rand : ℚ) : Option String :=
  arr.get? (Int.toNat (Int.floor (rand * arr.length)))

/-- An inbound Telegram message: `text` is `none` when the field is absent
(JS also treats an empty string as falsy, checked separately). -/
structure Message where
  text : Option String
  chatId : Int
  msgId : Nat
deriving DecidableEq

/-- A parsed update payload. -/
structure Update where
  message : Option Message
deriving DecidableEq

inductive Method where
  | get : Method
  | post : Method
deriving DecidableEq

/-- An inbound request: `body = none` models malformed JSON
(`request.json().catch(() => null)`). -/
structure Req where
  method : Method
  body : Option Update
deriving DecidableEq

/-- An outbound `sendMessage` call actually issued to the Telegram API. -/
structure Sent where
  chatId : Int
  text : String
  replyTo : Option Nat
deriving DecidableEq

/-- `sendTelegram`: drops the send when the bot token is missing, otherwise
records it; transport failures are caught inside and never thrown. -/
def sendTelegram (env : Env) (chatId : Int) (text : String) (replyTo : Option Nat) :
    List Sent :=
  if env.hasBotToken then [⟨chatId, text, replyTo⟩] else []

structure HttpResponse where
  status : Nat
  body : String
deriving DecidableEq

/-- `new Response(JSON.stringify(\x7b ok: true \x7d))` — status 200. -/
def okResp : HttpResponse := ⟨200, "\x7b\"ok\":true\x7d"⟩

/-- `!update || !update.message || !update.message.text` on the text field:
absent or empty text is falsy. -/
def msgTextFalsy : Option String → Bool
  | none => true
  | some t => t = ""

/-- The message string of each `FetchErr` (`err.message` in JS). -/
def errMessage : FetchErr → String
  | .configKV => "Binding \x27SHEET_KV\x27 is not defined in env. Проверьте wrangler.toml и Dashboard."
  | .configCreds => "Missing GOOGLE_SHEETS_ID или GOOGLE_SHEETS_API_KEY in env"
  | .kvRead => "Error accessing KV"
  | .transport => "Failed to fetch"
  | .remote status => "Sheets API returned HTTP " ++ toString status

def reloadOkMsg : String := "Данные перезагружены ✅"

def reloadFailMsg (e : FetchErr) : String :=
  "Ошибка при перезагрузке таблицы 😿: " ++ errMessage e

def fetchFailMsg (e : FetchErr) : String :=
  "Не удалось получить данные из таблицы 😿: " ++ errMessage e

def unknownTriggerMsg : String :=
  "Не знаю такого триггера 🙀 Напишите /reload, если вы только что добавили новый триггер."

def configErrMsg : String :=
  "Критическая ошибка конфигурации воркера 😿 Свяжитесь с администратором."

/-- `s.startsWith(pre)`, expressed over the character lists. -/
def jsStartsWith (s pre : String) : Bool :=
  pre.data.isPrefixOf s.data

/-- Key computation (worker.js lines 192–193): normalize, then route through
the alias table when the text starts with `/` (`commandMap[rawText] || rawText`). -/
def messageKey (t : String) : String :=
  let rawText := normalize t
  if jsStartsWith rawText "/" then (commandMap.lookup rawText).getD rawText else rawText

/-- `handleRequest`'s observable effects. -/
structure HandleOutcome where
  response : HttpResponse
  state : WorkerState
  sent : List Sent
  remoteCalls : Nat
  kvDeletes : Nat
deriving DecidableEq

/-- `handleRequest(request, env)` (worker.js lines 164–248), as a total
function: every catch block in the source swallows its error and falls
through to the final `ok: true` response, so every branch here ends in a
response value rather than an exception. -/
def handleRequest (req : Req) (env : Env) (ctx : Ctx) (s : WorkerState) : HandleOutcome :=
  if req.method = .get then
    ⟨⟨200, "🐈‍⬛ CatBot online"⟩, s, [], 0, 0⟩
  else if env.hasKV = false then
    -- lines 172–182: log, best-effort config-error notice, `ok: true`
    match req.body with
    | some u =>
      match u.message with
      | some m => ⟨okResp, s, sendTelegram env m.chatId configErrMsg none, 0, 0⟩
      | none => ⟨okResp, s, [], 0, 0⟩
    | none => ⟨okResp, s, [], 0, 0⟩
  else
    match req.body with
    | none => ⟨okResp, s, [], 0, 0⟩
    | some u =>
      match u.message with
      | none => ⟨okResp, s, [], 0, 0⟩
      | some m =>
        if msgTextFalsy m.text then ⟨okResp, s, [], 0, 0⟩
        else
          let key := messageKey (m.text.getD "")
          if key = "/reload" then
            -- delete KV (failure caught), clear RAM, rebuild, reply
            let s1 : WorkerState := ⟨none, if ctx.kvDeleteOk then none else s.kv⟩
            let fo := fetchSheet env ctx s1
            match fo.result with
            | .ok _ =>
              ⟨okResp, fo.state, sendTelegram env m.chatId reloadOkMsg none,
               fo.remoteCalls, 1⟩
            | .err e =>
              ⟨okResp, fo.state, sendTelegram env m.chatId (reloadFailMsg e) none,
               fo.remoteCalls, 1⟩
          else
            let fo := fetchSheet env ctx s
            match fo.result with
            | .err e =>
              ⟨okResp, fo.state, sendTelegram env m.chatId (fetchFailMsg e) none,
               fo.remoteCalls, 0⟩
            | .ok map =>
              match mapGet map key with
              | some answers =>
                if answers.length > 0 then
                  ⟨okResp, fo.state,
                   sendTelegram env m.chatId ((pickRandom answers ctx.rand).getD "undefined")
                     (some m.msgId),
                   fo.remoteCalls, 0⟩
                else
                  ⟨okResp, fo.state, sendTelegram env m.chatId unknownTriggerMsg none,
                   fo.remoteCalls, 0⟩
              | none =>
                ⟨okResp, fo.state, sendTelegram env m.chatId unknownTriggerMsg none,
                 fo.remoteCalls, 0⟩

/-- `handleScheduled`'s observable effects: no chat reply is possible, so
`sent` records any outbound message (always empty). -/
structure SchedOutcome where
  state : WorkerState
  sent : List Sent
  remoteCalls : Nat
deriving DecidableEq

/-- `handleScheduled(event)` (worker.js lines 259–288): bail out when
`event.env` or the KV binding is missing; otherwise run `fetchSheet` and
swallow (log) any error. -/
def handleScheduled (envOpt : Option Env) (ctx : Ctx) (s : WorkerState) : SchedOutcome :=
  match envOpt with
  | none => ⟨s, [], 0⟩
  | some env =>
    if env.hasKV = false then ⟨s, [], 0⟩
    else
      let fo := fetchSheet env ctx s
      ⟨fo.state, [], fo.remoteCalls⟩

/-! ### The durable-tier serialization round trip -/

/-- A `TriggerTable` as the spec's data model describes it: an
insertion-ordered mapping, so the key column is duplicate-free.  Every map
the worker builds (`buildMap`, `jsNewMap`) has this shape. -/
structure TriggerTable where
  entries : TriggerMap
  nodupKeys : (entries.map Prod.fst).Nodup

/-- Serialization to the durable tier: `Array.from(map.entries())`. -/
def TriggerTable.serial (T : TriggerTable) : List (String × List String) :=
  serialize T.entries

/-- Deserialization from the durable tier: `new Map(kvRaw)`. -/
def deserialize (pairs : List (String × List String)) : TriggerMap :=
  jsNewMap pairs

/-- The responses the parsing loop collects for key `k`, in source-row order. -/
def responsesFor (k : String) (rows : List (List String)) : List String :=
  rows.filterMap fun row =>
    if rowTrigger row = k ∧ rowResponse row ≠ "" then some (rowResponse row) else none

/-! ### Concrete fixtures used to instantiate the theorems -/

/-- All bindings and secrets present. -/
def envAll : Env := ⟨true, true, true, true⟩

/-- A small table: one trigger with two responses. -/
def mapMeow : TriggerMap := [("meow", ["a", "b"])]

/-- A clock reading before `sFresh`'s expiry; remote source healthy. -/
def ctxWarm : Ctx := ⟨100, true, .ok [], true, true, 1/2⟩

/-- Remote source returns a header row plus one data row. -/
def ctxCold : Ctx := ⟨100, true, .ok [["h1", "h2", "h3"], ["1", "Meow", "a"]], true, true, 1/2⟩

/-- Remote source answers HTTP 500. -/
def ctxHttpErr : Ctx := ⟨100, true, .httpError 500, true, true, 1/2⟩

/-- Remote fetch rejects with a transport error. -/
def ctxTransportErr : Ctx := ⟨100, true, .transportError, true, true, 1/2⟩

/-- Like `ctxCold` but the durable-tier write fails. -/
def ctxPutFail : Ctx := ⟨100, true, .ok [["h1", "h2", "h3"], ["1", "Meow", "a"]], false, true, 1/2⟩

/-- Fresh process tier (expiry 200 > now 100), durable tier empty. -/
def sFresh : WorkerState := ⟨some ⟨mapMeow, 200⟩, none⟩

/-- Process tier empty, durable tier holds a serialized table. -/
def sKvOnly : WorkerState := ⟨none, some [("meow", ["a"])]⟩

/-- Both tiers cold. -/
def sCold : WorkerState := ⟨none, none⟩

/-- A plain message whose text resolves to the `"meow"` trigger. -/
def msgMeow : Message := ⟨some "Meow", 7, 42⟩

def reqMeow : Req := ⟨.post, some ⟨some msgMeow⟩⟩

/-- A reload command (normalization maps it to `/reload`). -/
def msgReload : Message := ⟨some " /Reload ", 7, 42⟩

def reqReload : Req := ⟨.post, some ⟨some msgReload⟩⟩

/-! ### Lemmas about the JS `Map` operations -/

theorem mapGet_mapSet_self (m : TriggerMap) (k : String) (v : List String) :
    mapGet (mapSet m k v) k = some v := by
  induction m with
  | nil => simp [mapSet, mapGet]
  | cons p rest ih =>
    obtain ⟨k', v'⟩ := p
    by_cases h : k' = k
    · simp [mapSet, mapGet, h]
    · simp [mapSet, mapGet, h, ih]

theorem mapGet_mapSet_ne (m : TriggerMap) (k k' : String) (v : List String)
    (h : k' ≠ k) : mapGet (mapSet m k v) k' = mapGet m k' := by
  induction m with
  | nil => simp [mapSet, mapGet, Ne.symm h]
  | cons p rest ih =>
    obtain ⟨k₀, v₀⟩ := p
    by_cases h₀ : k₀ = k
    · subst h₀
      simp [mapSet, mapGet, Ne.symm h]
    · simp only [mapSet, if_neg h₀, mapGet]
      by_cases h₁ : k₀ = k'
      · simp [h₁]
      · simp [h₁, ih]

theorem mapGet_mem (m : TriggerMap) (k : String) (v : List String)
    (h : mapGet m k = some v) : (k, v) ∈ m := by
  induction m with
  | nil => simp [mapGet] at h
  | cons p rest ih =>
    obtain ⟨k₀, v₀⟩ := p
    by_cases h₀ : k₀ = k
    · subst h₀
      simp [mapGet] at h
      simp [h]
    · simp only [mapGet, if_neg h₀] at h
      exact List.mem_cons_of_mem _ (ih h)

theorem mem_mapSet (m : TriggerMap) (k : String) (v : List String)
    (p : String × List String) (h : p ∈ mapSet m k v) : p = (k, v) ∨ p ∈ m := by
  induction m with
  | nil => simpa [mapSet] using h
  | cons q rest ih =>
    obtain ⟨k₀, v₀⟩ := q
    by_cases h₀ : k₀ = k
    · subst h₀
      simp only [mapSet, if_pos rfl] at h
      rcases List.mem_cons.mp h with h | h
      · exact Or.inl h
      · exact Or.inr (List.mem_cons_of_mem _ h)
    · simp only [mapSet, if_neg h₀] at h
      rcases List.mem_cons.mp h with h | h
      · exact Or.inr (h ▸ List.mem_cons_self _ _)
      · rcases ih h with h | h
        · exact Or.inl h
        · exact Or.inr (List.mem_cons_of_mem _ h)

theorem mapSet_of_not_mem (m : TriggerMap) (k : String) (v : List String)
    (h : k ∉ m.map Prod.fst) : mapSet m k v = m ++ [(k, v)] := by
  induction m with
  | nil => simp [mapSet]
  | cons q rest ih =>
    obtain ⟨k₀, v₀⟩ := q
    simp only [List.map_cons, List.mem_cons, not_or] at h
    simp only [mapSet, if_neg (Ne.symm h.1), List.cons_append,
      List.cons.injEq, true_and]
    exact ih h.2

theorem mapSet_keys_of_mem (m : TriggerMap) (k : String) (v : List String)
    (h : k ∈ m.map Prod.fst) : (mapSet m k v).map Prod.fst = m.map Prod.fst := by
  induction m with
  | nil => simp at h
  | cons q rest ih =>
    obtain ⟨k₀, v₀⟩ := q
    by_cases h₀ : k₀ = k
    · simp [mapSet, h₀]
    · simp only [List.map_cons, List.mem_cons] at h
      rcases h with h | h
      · exact absurd h.symm h₀
      · simp [mapSet, if_neg h₀, ih h]

theorem mapSet_keys_nodup (m : TriggerMap) (k : String) (v : List String)
    (h : (m.map Prod.fst).Nodup) : ((mapSet m k v).map Prod.fst).Nodup := by
  by_cases hk : k ∈ m.map Prod.fst
  · rw [mapSet_keys_of_mem m k v hk]
    exact h
  · rw [mapSet_of_not_mem m k v hk]
    simp only [List.map_append, List.map_cons, List.map_nil]
    rw [List.nodup_append]
    exact ⟨h, List.nodup_singleton k, by simpa using hk⟩

theorem foldl_mapSet_nodup (pairs : List (String × List String)) :
    ∀ m : TriggerMap, (m.map Prod.fst).Nodup →
      (((pairs.foldl (fun acc p => mapSet acc p.1 p.2) m)).map Prod.fst).Nodup := by
  induction pairs with
  | nil => intro m h; simpa using h
  | cons p rest ih =>
    intro m h
    exact ih _ (mapSet_keys_nodup m p.1 p.2 h)

theorem jsNewMap_keys_nodup (pairs : List (String × List String)) :
    ((jsNewMap pairs).map Prod.fst).Nodup :=
  foldl_mapSet_nodup pairs [] (by simp)

theorem foldl_mapSet_eq_append (l : List (String × List String)) :
    ∀ m : TriggerMap, (((m ++ l).map Prod.fst)).Nodup →
      l.foldl (fun acc p => mapSet acc p.1 p.2) m = m ++ l := by
  induction l with
  | nil => intro m _; simp
  | cons p rest ih =>
    intro m h
    obtain ⟨k, v⟩ := p
    have hk : k ∉ m.map Prod.fst := by
      rw [List.map_append, List.nodup_append] at h
      intro hm
      exact h.2.2 hm (by simp)
    have hset : mapSet m k v = m ++ [(k, v)] := mapSet_of_not_mem m k v hk
    have hre : m ++ [(k, v)] ++ rest = m ++ (k, v) :: rest := by simp
    calc ((k, v) :: rest).foldl (fun acc p => mapSet acc p.1 p.2) m
        = rest.foldl (fun acc p => mapSet acc p.1 p.2) (m ++ [(k, v)]) := by
          simp [List.foldl_cons, hset]
      _ = (m ++ [(k, v)]) ++ rest := ih (m ++ [(k, v)]) (by rw [hre]; exact h)
      _ = m ++ (k, v) :: rest := hre

theorem jsNewMap_of_nodup (l : List (String × List String))
    (h : (l.map Prod.fst).Nodup) : jsNewMap l = l := by
  have := foldl_mapSet_eq_append l [] (by simpa using h)
  simpa [jsNewMap] using this

/-! ### Lemmas about the rebuild parser -/

theorem addRow_blank (m : TriggerMap) (row : List String)
    (h : rowTrigger row = "" ∨ rowResponse row = "") : addRow m row = m := by
  simp only [addRow]
  rw [if_pos h]

theorem rowResponse_short (row : List String) (h : row.length < 3) :
    rowResponse row = "" := by
  unfold rowResponse
  rw [List.getD_eq_default _ _ (by omega)]
  decide

theorem addRow_valid (m : TriggerMap) (row : List String)
    (h : ¬(rowTrigger row = "" ∨ rowResponse row = "")) :
    addRow m row =
      mapSet m (rowTrigger row)
        (((mapGet m (rowTrigger row)).getD []) ++ [rowResponse row]) := by
  simp only [addRow]
  rw [if_neg h]

theorem addRow_preserves_inv (m : TriggerMap) (row : List String)
    (h : ∀ p ∈ m, p.1 ≠ "" ∧ "" ∉ p.2) :
    ∀ p ∈ addRow m row, p.1 ≠ "" ∧ "" ∉ p.2 := by
  intro p hp
  by_cases hb : rowTrigger row = "" ∨ rowResponse row = ""
  · rw [addRow_blank m row hb] at hp
    exact h p hp
  · rw [addRow_valid m row hb] at hp
    push_neg at hb
    rcases mem_mapSet _ _ _ _ hp with h1 | h1
    · subst h1
      refine ⟨hb.1, ?_⟩
      intro hmem
      rcases List.mem_append.mp hmem with h2 | h2
      · cases hget : mapGet m (rowTrigger row) with
        | none => rw [hget] at h2; simp at h2
        | some v =>
          rw [hget] at h2
          exact (h _ (mapGet_mem _ _ _ hget)).2 h2
      · simp at h2
        exact hb.2 h2.symm
    · exact h p h1

theorem foldl_addRow_preserves_inv (rows : List (List String)) :
    ∀ m : TriggerMap, (∀ p ∈ m, p.1 ≠ "" ∧ "" ∉ p.2) →
      ∀ p ∈ rows.foldl addRow m, p.1 ≠ "" ∧ "" ∉ p.2 := by
  induction rows with
  | nil => intro m h; exact h
  | cons row rest ih =>
    intro m h
    exact ih (addRow m row) (addRow_preserves_inv m row h)

theorem responsesFor_cons_neg (k : String) (row : List String)
    (rows : List (List String)) (h : ¬(rowTrigger row = k ∧ rowResponse row ≠ "")) :
    responsesFor k (row :: rows) = responsesFor k rows := by
  simp only [responsesFor, List.filterMap_cons]
  rw [if_neg h]

theorem responsesFor_cons_pos (k : String) (row : List String)
    (rows : List (List String)) (h : rowTrigger row = k ∧ rowResponse row ≠ "") :
    responsesFor k (row :: rows) = rowResponse row :: responsesFor k rows := by
  simp only [responsesFor, List.filterMap_cons]
  rw [if_pos h]

theorem mapGet_foldl_addRow_some (k : String) (hk : k ≠ "")
    (rows : List (List String)) :
    ∀ (m : TriggerMap) (v : List String), mapGet m k = some v →
      mapGet (rows.foldl addRow m) k = some (v ++ responsesFor k rows) := by
  induction rows with
  | nil => intro m v h; simpa [responsesFor] using h
  | cons row rest ih =>
    intro m v h
    by_cases hb : rowTrigger row = "" ∨ rowResponse row = ""
    · rw [List.foldl_cons, addRow_blank m row hb,
        responsesFor_cons_neg k row rest ?_, ih m v h]
      rcases hb with hb | hb
      · rintro ⟨h1, -⟩; exact hk (h1 ▸ hb)
      · rintro ⟨-, h2⟩; exact h2 hb
    · push_neg at hb
      by_cases htk : rowTrigger row = k
      · rw [List.foldl_cons, addRow_valid m row (by push_neg; exact hb),
          responsesFor_cons_pos k row rest ⟨htk, hb.2⟩]
        rw [htk, h]
        simp only [Option.getD_some]
        rw [ih _ (v ++ [rowResponse row]) (mapGet_mapSet_self m k _)]
        simp
      · rw [List.foldl_cons, addRow_valid m row (by push_neg; exact hb),
          responsesFor_cons_neg k row rest (by rintro ⟨h1, -⟩; exact htk h1)]
        exact ih _ v (by rw [mapGet_mapSet_ne _ _ _ _ (fun h' => htk h'.symm), h])

theorem mapGet_foldl_addRow_none (k : String) (hk : k ≠ "")
    (rows : List (List String)) :
    ∀ m : TriggerMap, mapGet m k = none →
      mapGet (rows.foldl addRow m) k =
        if responsesFor k rows = [] then none else some (responsesFor k rows) := by
  induction rows with
  | nil => intro m h; simpa [responsesFor] using h
  | cons row rest ih =>
    intro m h
    by_cases hb : rowTrigger row = "" ∨ rowResponse row = ""
    · rw [List.foldl_cons, addRow_blank m row hb,
        responsesFor_cons_neg k row rest ?_, ih m h]
      rcases hb with hb | hb
      · rintro ⟨h1, -⟩; exact hk (h1 ▸ hb)
      · rintro ⟨-, h2⟩; exact h2 hb
    · push_neg at hb
      by_cases htk : rowTrigger row = k
      · rw [List.foldl_cons, addRow_valid m row (by push_neg; exact hb),
          responsesFor_cons_pos k row rest ⟨htk, hb.2⟩]
        rw [htk, h]
        simp only [Option.getD_none, List.nil_append]
        rw [mapGet_foldl_addRow_some k hk rest _ [rowResponse row]
          (mapGet_mapSet_self m k _)]
        simp
      · rw [List.foldl_cons, addRow_valid m row (by push_neg; exact hb),
          responsesFor_cons_neg k row rest (by rintro ⟨h1, -⟩; exact htk h1)]
        exact ih _ (by rw [mapGet_mapSet_ne _ _ _ _ (fun h' => htk h'.symm), h])

-- sanity checks on the dispatch-layer string functions
example : jsStartsWith "/reload" "/" = true := by decide
example : commandMap.lookup "/reload" = none := by decide
example : messageKey " /Reload " = "/reload" := by decide
example : (0:ℚ) ≤ 1/2 ∧ (1/2:ℚ) < 1 := ⟨one_half_pos.le, one_half_lt_one⟩

/-! ### The claims -/

/-- C9: serializing a TriggerTable to the ordered list of
`(trigger, responses[])` pairs and deserializing that list back yields a
table whose serialization equals the original serialization —
`serialize (deserialize (serialize T)) = serialize T`, so the durable-tier
round trip is lossless. -/
theorem serialize_roundtrip (T : TriggerTable) :
    serialize (deserialize T.serial) = T.serial := by
  simp only [TriggerTable.serial, serialize, deserialize]
  exact jsNewMap_of_nodup T.entries T.nodupKeys

/-- C6: for every rows input to the rebuild parser, a row with a
blank-after-trimming trigger or response contributes nothing to the table;
a row shorter than the required three columns (including a 1-cell row) is
treated as having blank fields and dropped; and consequently no empty key
and no empty response string is ever stored. -/
theorem parser_invalid_rows :
    (∀ (pre : List (List String)) (row : List String) (post : List (List String)),
        rowTrigger row = "" ∨ rowResponse row = "" →
        buildMap (pre ++ row :: post) = buildMap (pre ++ post)) ∧
    (∀ (pre : List (List String)) (row : List String) (post : List (List String)),
        row.length < 3 →
        buildMap (pre ++ row :: post) = buildMap (pre ++ post)) ∧
    (∀ rows : List (List String), ∀ p ∈ buildMap rows, p.1 ≠ "" ∧ "" ∉ p.2) := by
  refine ⟨?_, ?_, ?_⟩
  · intro pre row post h
    simp only [buildMap, List.foldl_append, List.foldl_cons]
    rw [addRow_blank _ row h]
  · intro pre row post h
    simp only [buildMap, List.foldl_append, List.foldl_cons]
    rw [addRow_blank _ row (Or.inr (rowResponse_short row h))]
  · intro rows p hp
    exact foldl_addRow_preserves_inv rows [] (by simp) p hp

theorem parser_invalid_rows_witness :
    (buildMap [["1", "  ", "resp"]] = buildMap []) ∧
    (buildMap [["lonely"]] = buildMap []) ∧
    ("q" ≠ "" ∧ ("" : String) ∉ ["r"]) :=
  ⟨parser_invalid_rows.1 [] ["1", "  ", "resp"] [] (by decide),
   parser_invalid_rows.2.1 [] ["lonely"] [] (by decide),
   parser_invalid_rows.2.2 [["1", "q", "r"]] ("q", ["r"]) (by decide)⟩

/-- C7: source rows whose triggers normalize (trim + lowercase) to the same
key accumulate their responses by appending, preserving source-row order:
the table's entry at any non-blank key `k` is exactly the ordered list of
responses of the valid rows whose trigger normalizes to `k`; in particular
the rows `("Meow","a"), ("meow ","b"), ("MEOW","c")` (behind a header row)
yield the entry `"meow" → ["a","b","c"]`. -/
theorem parser_accumulation :
    (∀ (rows : List (List String)) (k : String), k ≠ "" →
        mapGet (buildMap rows) k =
          if responsesFor k rows = [] then none else some (responsesFor k rows)) ∧
    mapGet (parseValues
        [["hdr1", "hdr2", "hdr3"],
         ["1", "Meow", "a"], ["2", "meow ", "b"], ["3", "MEOW", "c"]]) "meow" =
      some ["a", "b", "c"] := by
  constructor
  · intro rows k hk
    exact mapGet_foldl_addRow_none k hk rows [] rfl
  · decide

theorem parser_accumulation_witness :
    mapGet (buildMap [["1", "A", "r1"], ["2", "a ", "r2"]]) "a" =
      (if responsesFor "a" [["1", "A", "r1"], ["2", "a ", "r2"]] = [] then none
       else some (responsesFor "a" [["1", "A", "r1"], ["2", "a ", "r2"]])) :=
  parser_accumulation.1 [["1", "A", "r1"], ["2", "a ", "r2"]] "a" (by decide)

/-- C1: in every call to `fetchSheet` (with the KV binding present):
(i) if the process-tier entry exists and the clock is before its expiry, it
is returned with zero durable-store reads and zero remote contacts;
(ii) otherwise, if the durable-tier entry is present, it is deserialized
into a new process-tier entry and returned with zero remote contacts;
(iii) otherwise the remote source is contacted exactly once, the result is
written to both tiers (the durable write being attempted, `kvPuts = 1`),
and the new table is returned. -/
theorem fetchSheet_tier_order (env : Env) (ctx : Ctx) (s : WorkerState)
    (hkv : env.hasKV = true) :
    (∀ c : CacheEntry, s.ramCache = some c → ctx.now < c.exp →
        fetchSheet env ctx s = ⟨.ok c.data, s, 0, 0, 0⟩) ∧
    (ramFresh ctx.now s.ramCache = false → ctx.kvReadOk = true →
        ∀ raw, s.kv = some raw →
          fetchSheet env ctx s =
            ⟨.ok (jsNewMap raw),
             ⟨some ⟨jsNewMap raw, ctx.now + RAM_TTL⟩, s.kv⟩, 0, 1, 0⟩) ∧
    (ramFresh ctx.now s.ramCache = false → ctx.kvReadOk = true → s.kv = none →
        env.hasSheetsId = true → env.hasApiKey = true →
        ∀ values, ctx.remote = .ok values →
          fetchSheet env ctx s =
            ⟨.ok (parseValues values),
             ⟨some ⟨parseValues values, ctx.now + RAM_TTL⟩,
              if ctx.kvPutOk then some (serialize (parseValues values)) else none⟩,
             1, 1, 1⟩) := by
  refine ⟨?_, ?_, ?_⟩
  · intro c hc hlt
    simp [fetchSheet, hkv, hc, hlt]
  · intro hram hread raw hraw
    cases hrc : s.ramCache with
    | none => simp [fetchSheet, hkv, hrc, fetchCold, hread, hraw]
    | some c =>
      rw [hrc] at hram
      simp only [ramFresh, decide_eq_false_iff_not] at hram
      simp [fetchSheet, hkv, hrc, hram, fetchCold, hread, hraw]
  · intro hram hread hkvn hid hkey values hrem
    have hcold : fetchCold env ctx s =
        ⟨.ok (parseValues values),
         ⟨some ⟨parseValues values, ctx.now + RAM_TTL⟩,
          if ctx.kvPutOk then some (serialize (parseValues values)) else none⟩,
         1, 1, 1⟩ := by
      simp [fetchCold, hread, hkvn, hid, hkey, hrem]
    cases hrc : s.ramCache with
    | none => rw [fetchSheet, if_neg (by simp [hkv]), hrc, hcold]
    | some c =>
      rw [hrc] at hram
      simp only [ramFresh, decide_eq_false_iff_not] at hram
      simp [fetchSheet, hkv, hrc, hram, hcold]

theorem fetchSheet_tier_order_witness :
    (fetchSheet envAll ctxWarm sFresh = ⟨.ok mapMeow, sFresh, 0, 0, 0⟩) ∧
    (fetchSheet envAll ctxWarm sKvOnly =
      ⟨.ok (jsNewMap [("meow", ["a"])]),
       ⟨some ⟨jsNewMap [("meow", ["a"])], ctxWarm.now + RAM_TTL⟩, sKvOnly.kv⟩,
       0, 1, 0⟩) ∧
    (fetchSheet envAll ctxCold sCold =
      ⟨.ok (parseValues [["h1", "h2", "h3"], ["1", "Meow", "a"]]),
       ⟨some ⟨parseValues [["h1", "h2", "h3"], ["1", "Meow", "a"]], ctxWarm.now + RAM_TTL⟩,
        if ctxCold.kvPutOk then
          some (serialize (parseValues [["h1", "h2", "h3"], ["1", "Meow", "a"]]))
        else none⟩,
       1, 1, 1⟩) :=
  ⟨(fetchSheet_tier_order envAll ctxWarm sFresh rfl).1 ⟨mapMeow, 200⟩ rfl (by decide),
   (fetchSheet_tier_order envAll ctxWarm sKvOnly rfl).2.1 rfl rfl [("meow", ["a"])] rfl,
   (fetchSheet_tier_order envAll ctxCold sCold rfl).2.2 rfl rfl rfl rfl rfl
     [["h1", "h2", "h3"], ["1", "Meow", "a"]] rfl⟩

/-- C3: if the remote fetch during a rebuild fails — transport error or a
non-success HTTP status — the error propagates out of `fetchSheet` as its
result, and the state is left exactly as it was: the previous process-tier
entry is untouched and neither tier is partially updated. -/
theorem fetchSheet_error_propagates (env : Env) (ctx : Ctx) (s : WorkerState)
    (hkv : env.hasKV = true) (hram : ramFresh ctx.now s.ramCache = false)
    (hread : ctx.kvReadOk = true) (hkvn : s.kv = none)
    (hid : env.hasSheetsId = true) (hkey : env.hasApiKey = true) :
    (∀ status, ctx.remote = .httpError status →
        fetchSheet env ctx s = ⟨.err (.remote status), s, 1, 1, 0⟩) ∧
    (ctx.remote = .transportError →
        fetchSheet env ctx s = ⟨.err .transport, s, 1, 1, 0⟩) := by
  have hsheet : ∀ o : FetchOutcome, fetchCold env ctx s = o → fetchSheet env ctx s = o := by
    intro o ho
    cases hrc : s.ramCache with
    | none => rw [fetchSheet, if_neg (by simp [hkv]), hrc, ho]
    | some c =>
      rw [hrc] at hram
      simp only [ramFresh, decide_eq_false_iff_not] at hram
      simp [fetchSheet, hkv, hrc, hram, ho]
  constructor
  · intro status hrem
    exact hsheet _ (by simp [fetchCold, hread, hkvn, hid, hkey, hrem])
  · intro hrem
    exact hsheet _ (by simp [fetchCold, hread, hkvn, hid, hkey, hrem])

theorem fetchSheet_error_propagates_witness :
    (fetchSheet envAll ctxHttpErr sCold = ⟨.err (.remote 500), sCold, 1, 1, 0⟩) ∧
    (fetchSheet envAll ctxTransportErr sCold = ⟨.err .transport, sCold, 1, 1, 0⟩) :=
  ⟨(fetchSheet_error_propagates envAll ctxHttpErr sCold rfl rfl rfl rfl rfl rfl).1 500 rfl,
   (fetchSheet_error_propagates envAll ctxTransportErr sCold rfl rfl rfl rfl rfl rfl).2 rfl⟩

/-- C8: if the durable-tier write fails after a successful remote rebuild,
the failure is swallowed: `fetchSheet` still populates the process tier with
the new table and returns it (the durable tier is simply left as it was),
so the caller's request can succeed. -/
theorem kv_put_failure_swallowed (env : Env) (ctx : Ctx) (s : WorkerState)
    (hkv : env.hasKV = true) (hram : ramFresh ctx.now s.ramCache = false)
    (hread : ctx.kvReadOk = true) (hkvn : s.kv = none)
    (hid : env.hasSheetsId = true) (hkey : env.hasApiKey = true)
    (values : List (List String)) (hrem : ctx.remote = .ok values)
    (hput : ctx.kvPutOk = false) :
    fetchSheet env ctx s =
      ⟨.ok (parseValues values),
       ⟨some ⟨parseValues values, ctx.now + RAM_TTL⟩, s.kv⟩, 1, 1, 1⟩ := by
  have hcold : fetchCold env ctx s =
      ⟨.ok (parseValues values),
       ⟨some ⟨parseValues values, ctx.now + RAM_TTL⟩, s.kv⟩, 1, 1, 1⟩ := by
    simp [fetchCold, hread, hkvn, hid, hkey, hrem, hput]
  cases hrc : s.ramCache with
  | none => rw [fetchSheet, if_neg (by simp [hkv]), hrc, hcold]
  | some c =>
    rw [hrc] at hram
    simp only [ramFresh, decide_eq_false_iff_not] at hram
    simp [fetchSheet, hkv, hrc, hram, hcold]

theorem kv_put_failure_swallowed_witness :
    fetchSheet envAll ctxPutFail sCold =
      ⟨.ok (parseValues [["h1", "h2", "h3"], ["1", "Meow", "a"]]),
       ⟨some ⟨parseValues [["h1", "h2", "h3"], ["1", "Meow", "a"]],
         ctxPutFail.now + RAM_TTL⟩, sCold.kv⟩, 1, 1, 1⟩ :=
  kv_put_failure_swallowed envAll ctxPutFail sCold rfl rfl rfl rfl rfl rfl
    [["h1", "h2", "h3"], ["1", "Meow", "a"]] rfl rfl

/-- C4: for every inbound request — malformed JSON, missing `message.text`,
a cache fetch failure, a reload failure, or any of the modelled failure
modes inside the handler — `handleRequest` returns a success (200)
acknowledgement; no internal error produces a non-success outward status. -/
theorem handleRequest_always_ack (req : Req) (env : Env) (ctx : Ctx) (s : WorkerState) :
    (handleRequest req env ctx s).response.status = 200 := by
  unfold handleRequest
  repeat' first
  | rfl
  | split
  | dsimp only

/-- C5: on a message whose key is the reload directive `/reload`, the handler
attempts the durable-tier delete (`kvDeletes = 1`) and clears the
process-tier entry unconditionally (the rebuild starts from
`ramCache = none`, with the durable entry gone whenever the delete
succeeded), then rebuilds via `fetchSheet`; on success it replies with the
confirmation notice, on failure with the failure notice, and in either case
the error propagates no further: the response is the success
acknowledgement. -/
theorem reload_invalidate_rebuild (req : Req) (env : Env) (ctx : Ctx) (s : WorkerState)
    (u : Update) (m : Message) (t : String)
    (hm : req.method = .post) (hb : req.body = some u) (hmsg : u.message = some m)
    (ht : m.text = some t) (hnorm : normalize t = "/reload")
    (hkv : env.hasKV = true) :
    handleRequest req env ctx s =
      ⟨okResp,
       (fetchSheet env ctx ⟨none, if ctx.kvDeleteOk then none else s.kv⟩).state,
       sendTelegram env m.chatId
         (match (fetchSheet env ctx ⟨none, if ctx.kvDeleteOk then none else s.kv⟩).result with
          | .ok _ => reloadOkMsg
          | .err e => reloadFailMsg e) none,
       (fetchSheet env ctx ⟨none, if ctx.kvDeleteOk then none else s.kv⟩).remoteCalls, 1⟩ := by
  have htne : t ≠ "" := by
    intro h
    rw [h] at hnorm
    exact absurd hnorm (by decide)
  have hfalsy : msgTextFalsy (some t) = false := by
    simp [msgTextFalsy, htne]
  have hkey : messageKey t = "/reload" := by
    simp only [messageKey]
    rw [hnorm]
    decide
  simp only [handleRequest, hm, hb, hmsg, ht, hkv, hfalsy, hkey, Option.getD_some,
    Bool.false_eq_true, if_false, reduceCtorEq, if_true]
  cases hres : (fetchSheet env ctx ⟨none, if ctx.kvDeleteOk then none else s.kv⟩).result with
  | ok tbl => simp [hres]
  | err e => simp [hres]

theorem reload_invalidate_rebuild_witness :
    handleRequest reqReload envAll ctxCold sFresh =
      ⟨okResp,
       (fetchSheet envAll ctxCold ⟨none, if ctxCold.kvDeleteOk then none else sFresh.kv⟩).state,
       sendTelegram envAll (7 : Int)
         (match (fetchSheet envAll ctxCold
             ⟨none, if ctxCold.kvDeleteOk then none else sFresh.kv⟩).result with
          | .ok _ => reloadOkMsg
          | .err e => reloadFailMsg e) none,
       (fetchSheet envAll ctxCold
         ⟨none, if ctxCold.kvDeleteOk then none else sFresh.kv⟩).remoteCalls, 1⟩ :=
  reload_invalidate_rebuild reqReload envAll ctxCold sFresh ⟨some msgReload⟩ msgReload
    " /Reload " rfl rfl rfl rfl (by decide) rfl

/-- C2 counterexample: with a fresh process tier (`now = 100 < exp = 200`)
and an empty durable tier, the scheduled-tick handler contacts the remote
source zero times and leaves the state unchanged — it does not force a
rebuild that writes both tiers, contradicting the claim. -/
theorem handleScheduled_no_forced_rebuild :
    (handleScheduled (some envAll) ctxWarm sFresh).remoteCalls = 0 ∧
    (handleScheduled (some envAll) ctxWarm sFresh).state = sFresh :=
  ⟨rfl, rfl⟩

/-- C2 amended: the scheduled-tick handler does not force a rebuild; it runs
the ordinary cache read (`fetchSheet` = ensureFresh), which rebuilds from
the remote source only when both tiers are cold — in particular a fresh
process tier means zero remote contacts.  Any fetch failure is swallowed
(the handler still terminates normally with `fetchSheet`'s state), and no
reply is ever produced. -/
theorem handleScheduled_runs_ensureFresh (env : Env) (ctx : Ctx) (s : WorkerState) :
    (handleScheduled (some env) ctx s).sent = [] ∧
    (env.hasKV = true →
        handleScheduled (some env) ctx s =
          ⟨(fetchSheet env ctx s).state, [], (fetchSheet env ctx s).remoteCalls⟩) ∧
    (ramFresh ctx.now s.ramCache = true →
        (handleScheduled (some env) ctx s).remoteCalls = 0) := by
  refine ⟨?_, ?_, ?_⟩
  · by_cases h : env.hasKV = false
    · simp [handleScheduled, h]
    · simp [handleScheduled, h]
  · intro h
    simp [handleScheduled, h]
  · intro hfresh
    by_cases h : env.hasKV = false
    · simp [handleScheduled, h]
    · cases hrc : s.ramCache with
      | none => rw [hrc] at hfresh; simp [ramFresh] at hfresh
      | some c =>
        rw [hrc] at hfresh
        simp only [ramFresh, decide_eq_true_eq] at hfresh
        simp [handleScheduled, h, fetchSheet, hrc, hfresh]

theorem handleScheduled_runs_ensureFresh_witness :
    (handleScheduled (some envAll) ctxCold sCold).sent = [] ∧
    (handleScheduled (some envAll) ctxCold sCold =
      ⟨(fetchSheet envAll ctxCold sCold).state, [],
       (fetchSheet envAll ctxCold sCold).remoteCalls⟩) ∧
    (handleScheduled (some envAll) ctxWarm sFresh).remoteCalls = 0 :=
  ⟨(handleScheduled_runs_ensureFresh envAll ctxCold sCold).1,
   (handleScheduled_runs_ensureFresh envAll ctxCold sCold).2.1 rfl,
   (handleScheduled_runs_ensureFresh envAll ctxWarm sFresh).2.2 (by decide)⟩

/-- C10: `pickRandom` applied to any non-empty array (with
`Math.random() ∈ [0,1)`) returns an element of that array — the computed
index is always in range — and the message handler only calls it when the
resolved response sequence is non-empty, so the reply sent for a known
trigger is always one of that trigger's stored response strings, threaded
onto the inbound message. -/
theorem pickRandom_membership :
    (∀ (arr : List String) (r : ℚ), 0 ≤ r → r < 1 → arr ≠ [] →
        ∃ x ∈ arr, pickRandom arr r = some x) ∧
    (∀ (req : Req) (env : Env) (ctx : Ctx) (s : WorkerState) (u : Update)
        (m : Message) (t : String) (tbl : TriggerMap) (answers : List String),
        req.method = .post → req.body = some u → u.message = some m →
        m.text = some t → msgTextFalsy m.text = false →
        messageKey t ≠ "/reload" → env.hasKV = true → env.hasBotToken = true →
        (fetchSheet env ctx s).result = .ok tbl →
        mapGet tbl (messageKey t) = some answers → answers ≠ [] →
        0 ≤ ctx.rand → ctx.rand < 1 →
        ∃ x ∈ answers,
          (handleRequest req env ctx s).sent = [⟨m.chatId, x, some m.msgId⟩]) := by
  have pick_mem : ∀ (arr : List String) (r : ℚ), 0 ≤ r → r < 1 → arr ≠ [] →
      ∃ x ∈ arr, pickRandom arr r = some x := by
    intro arr r hr0 hr1 hne
    have hlen : 0 < arr.length := List.length_pos.mpr hne
    have hlenQ : (0 : ℚ) < arr.length := by exact_mod_cast hlen
    have h0 : (0 : ℤ) ≤ Int.floor (r * (arr.length : ℚ)) :=
      Int.floor_nonneg.mpr (mul_nonneg hr0 hlenQ.le)
    have hlt : Int.floor (r * (arr.length : ℚ)) < (arr.length : ℤ) := by
      rw [Int.floor_lt]
      push_cast
      calc r * (arr.length : ℚ) < 1 * arr.length :=
            mul_lt_mul_of_pos_right hr1 hlenQ
        _ = arr.length := one_mul _
    have hidx : (Int.floor (r * (arr.length : ℚ))).toNat < arr.length := by omega
    refine ⟨arr.get ⟨_, hidx⟩, List.get_mem _ _ _, ?_⟩
    unfold pickRandom
    exact List.get?_eq_get hidx
  refine ⟨pick_mem, ?_⟩
  intro req env ctx s u m t tbl answers hm hb hmsg ht hfalsy hkeyne hkv htok hres
    hget hne hr0 hr1
  obtain ⟨x, hx, hpick⟩ := pick_mem answers ctx.rand hr0 hr1 hne
  refine ⟨x, hx, ?_⟩
  have hpos : 0 < answers.length := List.length_pos.mpr hne
  have hfalsy' : msgTextFalsy (some t) = false := ht ▸ hfalsy
  simp only [handleRequest, hm, hb, hmsg, ht, hkv, hfalsy', Option.getD_some,
    Bool.false_eq_true, if_false, reduceCtorEq]
  rw [if_neg hkeyne]
  simp only [hres, hget]
  simp [hpos, hpick, sendTelegram, htok]

theorem pickRandom_membership_witness :
    (∃ x ∈ ["a", "b"], pickRandom ["a", "b"] (1/2) = some x) ∧
    (∃ x ∈ ["a", "b"],
        (handleRequest reqMeow envAll ctxWarm sFresh).sent = [⟨(7 : Int), x, some 42⟩]) :=
  ⟨pickRandom_membership.1 ["a", "b"] (1/2) one_half_pos.le one_half_lt_one (by decide),
   pickRandom_membership.2 reqMeow envAll ctxWarm sFresh ⟨some msgMeow⟩ msgMeow "Meow"
     mapMeow ["a", "b"] rfl rfl rfl rfl (by decide) (by decide) rfl rfl rfl (by decide)
     (by decide) one_half_pos.le one_half_lt_one⟩

end CatBot
